import Mathlib

/-!
Shallow embedding of the fontGit commit-scoped caching layer and the
virtual-filesystem adapter (`src/fontGit/utils.py`): the `RepoCache`
class, its module-level singleton registry, and the `GitCommitFS`
read-only filesystem bound to one commit.

Modelling conventions:
* Repository paths are root-relative lists of components (`GitPath`);
  `os.path.join base p` is list append and `os.path.relpath(p, root)`
  (the `_get_rel_path` helper) is the identity under this convention.
* Blob contents are lists of bytes (`List Nat`).
* The git backend (GitPython) is modelled by the `Repo` structure: a
  newest-first (reverse-chronological) enumeration of commits, as
  produced by `iter_commits`, plus the current working-copy diff
  reported by `index.diff(None)`.
* Stateful methods of `RepoCache` become functions threading an
  explicit `RepoState` and additionally returning the number of
  backend fetches performed, so that cache-purity claims ("the second
  call performs no backend I/O") are statable.
* Python exceptions become `Except FSError` results.
-/

/-- A repository path, root-relative, as a list of components. -/
abbrev GitPath := List String

/-- A git object reachable from a commit tree: a blob with raw bytes,
or a tree with named child entries. -/
inductive GitObj where
  | blob (data : List Nat)
  | tree (entries : List (String × GitObj))

mutual

/-- Boolean equality of git objects (decidable equality is not
derivable automatically for this nested inductive). -/
def GitObj.beqFn : GitObj → GitObj → Bool
  | GitObj.blob d1, GitObj.blob d2 => decide (d1 = d2)
  | GitObj.tree es1, GitObj.tree es2 => GitObj.beqList es1 es2
  | _, _ => false

/-- Boolean equality of tree entry lists. -/
def GitObj.beqList : List (String × GitObj) → List (String × GitObj) → Bool
  | [], [] => true
  | (n1, o1) :: r1, (n2, o2) :: r2 =>
    decide (n1 = n2) && GitObj.beqFn o1 o2 && GitObj.beqList r1 r2
  | _, _ => false

end

mutual

def GitObj.beqFn_iff : (a b : GitObj) → (GitObj.beqFn a b = true ↔ a = b)
  | GitObj.blob d1, GitObj.blob d2 => by simp [GitObj.beqFn]
  | GitObj.blob _, GitObj.tree _ => by simp [GitObj.beqFn]
  | GitObj.tree _, GitObj.blob _ => by simp [GitObj.beqFn]
  | GitObj.tree es1, GitObj.tree es2 => by
    have h := GitObj.beqList_iff es1 es2
    simp [GitObj.beqFn, h]

def GitObj.beqList_iff :
    (a b : List (String × GitObj)) → (GitObj.beqList a b = true ↔ a = b)
  | [], [] => by simp [GitObj.beqList]
  | [], _ :: _ => by simp [GitObj.beqList]
  | _ :: _, [] => by simp [GitObj.beqList]
  | (n1, o1) :: r1, (n2, o2) :: r2 => by
    have h1 := GitObj.beqFn_iff o1 o2
    have h2 := GitObj.beqList_iff r1 r2
    simp [GitObj.beqList, h1, h2, Bool.and_eq_true, decide_eq_true_iff, and_assoc]

end

instance : DecidableEq GitObj := fun a b =>
  decidable_of_iff (GitObj.beqFn a b = true) (GitObj.beqFn_iff a b)

/-- Lookup of a named entry in a tree's entry list (one step of the
GitPython `tree / path` navigation). -/
def findEntry (name : String) : List (String × GitObj) → Option GitObj
  | [] => none
  | e :: rest => if e.1 = name then some e.2 else findEntry name rest

/-- GitPython `tree / path` navigation: follow the components of a
path from an object; a missing entry or a component under a blob is a
`KeyError`, modelled as `none`. -/
def navigate : GitObj → GitPath → Option GitObj
  | o, [] => some o
  | GitObj.blob _, _ :: _ => none
  | GitObj.tree es, c :: rest =>
    match findEntry c es with
    | some o => navigate o rest
    | none => none

mutual

/-- All blob entries (full path paired with content) reachable from a
git object, in entry-list order. -/
def blobEntries : GitObj → List (GitPath × List Nat)
  | GitObj.blob data => [([], data)]
  | GitObj.tree es => blobEntriesList es

/-- `blobEntries` mapped over an entry list, with the entry name
prepended to each path. -/
def blobEntriesList : List (String × GitObj) → List (GitPath × List Nat)
  | [] => []
  | e :: rest =>
    (blobEntries e.2).map (fun q => (e.1 :: q.1, q.2)) ++ blobEntriesList rest

end

/-- All blob paths reachable from a git object. -/
def blobPaths (o : GitObj) : List GitPath :=
  (blobEntries o).map (fun q => q.1)

/-- A commit record: hash, parent hashes, root tree. -/
structure Commit where
  hexsha : String
  parents : List String
  tree : GitObj
deriving DecidableEq

/-- One entry of GitPython's `index.diff(None)` working-copy diff. -/
structure WorkDiff where
  new_file : Bool
  deleted_file : Bool
  a_path : Option GitPath
  b_path : Option GitPath
deriving DecidableEq

/-- One entry of a GitPython commit/tree diff, with its one-letter
change type (A, D, R, M, ...). -/
structure DiffEntry where
  change_type : String
  a_path : Option GitPath
  b_path : Option GitPath
deriving DecidableEq

/-- The git backend for one repository: `history` is the newest-first
(reverse-chronological) enumeration of commits produced by
`iter_commits`, and `workingDiffs` is the current `index.diff(None)`
result describing uncommitted working-copy changes. -/
structure Repo where
  history : List Commit
  workingDiffs : List WorkDiff
deriving DecidableEq

/-- GitPython `repo.commit(hexsha)`: resolve a commit hash, `none` when
the hash names no commit (a `BadName` error in the source). -/
def Repo.commit (r : Repo) (h : String) : Option Commit :=
  r.history.find? (fun c => decide (c.hexsha = h))

/-- The hashes of the backend's newest-first commit enumeration
(`iter_commits(all=True)`). -/
def Repo.historyHashes (r : Repo) : List String :=
  r.history.map (fun c => c.hexsha)

/-- Modelled backend behavior of `iter_commits(since=h)` per the spec's
backend interface (iterate commits, optionally since a given commit):
the commits strictly newer than the given one, newest first. -/
def Repo.iterCommitsSince (r : Repo) (h : String) : List Commit :=
  r.history.takeWhile (fun c => !(decide (c.hexsha = h)))

/-- GitPython `repo.commit(rev)` with an optional revision: `None`
resolves to the head commit, a hash to that commit. -/
def Repo.resolveCommit (r : Repo) (rev : Option String) : Option Commit :=
  match rev with
  | none => r.history.head?
  | some h => r.commit h

/-- Association-list lookup, used to model the python dict caches. -/
def alookup {α β : Type} [DecidableEq α] : List (α × β) → α → Option β
  | [], _ => none
  | p :: rest, key => if p.1 = key then some p.2 else alookup rest key

/-- The changed-files classification returned by
`get_changed_files_paths_by_commit_hash`
(`{"added": [...], "removed": [...], "modified": [...]}`). -/
structure Changes where
  added : List GitPath
  removed : List GitPath
  modified : List GitPath
deriving DecidableEq

/-- The mutable attribute state of one `RepoCache` instance:
`_commits`, `_file_data`, `_changed_files`, `_commit_cache`,
`_latest_commit` and `_tree_cache`. -/
structure RepoState where
  commits : List String
  file_data : List ((String × GitPath) × Option (List Nat))
  changed_files : List (String × Changes)
  commit_cache : List (String × Commit)
  latest_commit : Option String
  tree_cache : List (String × GitObj)
deriving DecidableEq

/-- The attribute state set up by `RepoCache.__init__` before its
`_update_commits()` call. -/
def RepoState.initial : RepoState :=
  { commits := [], file_data := [], changed_files := [],
    commit_cache := [], latest_commit := none, tree_cache := [] }

/-- Error taxonomy: the `fs.errors` kinds raised by `GitCommitFS` plus
the backend errors (`BadName`, repo-init failure, `IndexError`). -/
inductive FSError where
  | resourceNotFound (path : GitPath)
  | resourceReadOnly (path : GitPath)
  | directoryExpected (path : GitPath)
  | badName
  | gitInitError
  | indexError
deriving DecidableEq

/-- `RepoCache._update_commits`: compare the backend's current latest
commit with the last-observed one; when they differ, extend `_commits`
at the END with the newly discovered commits (all commits, newest
first, on first population; the since-enumeration reversed on an
incremental refresh). -/
def update_commits (repo : Repo) (s : RepoState) : RepoState :=
  let latest_commit := (repo.history.head?).map (fun c => c.hexsha)
  if latest_commit ≠ s.latest_commit then
    let new_commits :=
      match s.latest_commit with
      | some lc => ((repo.iterCommitsSince lc).map (fun c => c.hexsha)).reverse
      | none => repo.historyHashes
    { s with commits := s.commits ++ new_commits, latest_commit := latest_commit }
  else s

/-- The `RepoCache.commits` property: returns the internal commit list
as-is (no refresh, no backend access, no state change). -/
def commitsProp (s : RepoState) : List String × RepoState × Nat :=
  (s.commits, s, 0)

/-- `RepoCache._get_rel_path` (`os.path.relpath(abs_path, root)`):
the identity under the root-relative path convention of this model. -/
def getRelPath (p : GitPath) : GitPath := p

/-- `RepoCache.get_file_contents_at_commit`: per-(commit, path) cached
blob read; a directory or missing path is cached as `None`. The third
component counts backend fetches. -/
def get_file_contents_at_commit (repo : Repo) (s : RepoState) (commit_hash : String)
    (file_path : GitPath) (is_abs_path : Bool) :
    Except FSError (Option (List Nat)) × RepoState × Nat :=
  let file_path := if is_abs_path then getRelPath file_path else file_path
  let key := (commit_hash, file_path)
  match alookup s.file_data key with
  | some v => (Except.ok v, s, 0)
  | none =>
    match repo.commit commit_hash with
    | none => (Except.error FSError.badName, s, 1)
    | some commit =>
      let v : Option (List Nat) :=
        match navigate commit.tree file_path with
        | some (GitObj.blob data) => some data
        | some (GitObj.tree _) => none
        | none => none
      (Except.ok v, { s with file_data := (key, v) :: s.file_data }, 1)

/-- `RepoCache.get_commit_by_hash`: commit lookup through the
`_commit_cache`. -/
def get_commit_by_hash (repo : Repo) (s : RepoState) (commit_hash : String) :
    Except FSError Commit × RepoState × Nat :=
  match alookup s.commit_cache commit_hash with
  | some c => (Except.ok c, s, 0)
  | none =>
    match repo.commit commit_hash with
    | none => (Except.error FSError.badName, s, 1)
    | some c =>
      (Except.ok c, { s with commit_cache := (commit_hash, c) :: s.commit_cache }, 1)

/-- `RepoCache.get_tree_by_commit_hash`: tree lookup through the
`_tree_cache`. -/
def get_tree_by_commit_hash (repo : Repo) (s : RepoState) (commit_hash : String) :
    Except FSError GitObj × RepoState × Nat :=
  match alookup s.tree_cache commit_hash with
  | some t => (Except.ok t, s, 0)
  | none =>
    let r := get_commit_by_hash repo s commit_hash
    match r.1 with
    | Except.error e => (Except.error e, r.2.1, r.2.2)
    | Except.ok c =>
      (Except.ok c.tree,
       { r.2.1 with tree_cache := (commit_hash, c.tree) :: (r.2.1).tree_cache },
       r.2.2)

/-- `RepoCache.path_is_directory`: whether the path names a tree node
at the commit (`KeyError` on navigation yields `False`). -/
def path_is_directory (repo : Repo) (s : RepoState) (commit_hash : String)
    (path : GitPath) (is_abs_path : Bool) :
    Except FSError Bool × RepoState × Nat :=
  let path := if is_abs_path then getRelPath path else path
  let r := get_tree_by_commit_hash repo s commit_hash
  match r.1 with
  | Except.error e => (Except.error e, r.2.1, r.2.2)
  | Except.ok tree =>
    match navigate tree path with
    | some (GitObj.tree _) => (Except.ok true, r.2.1, r.2.2)
    | some (GitObj.blob _) => (Except.ok false, r.2.1, r.2.2)
    | none => (Except.ok false, r.2.1, r.2.2)

/-- `RepoCache.get_commit_by_index`: refreshes the commit list first,
then indexes into it (raising `IndexError` outside the range). -/
def get_commit_by_index (repo : Repo) (s : RepoState) (index : Int) :
    Except FSError Commit × RepoState × Nat :=
  let s := update_commits repo s
  if 0 ≤ index ∧ index < (s.commits.length : Int) then
    match s.commits.get? index.toNat with
    | some commit_hash => get_commit_by_hash repo s commit_hash
    | none => (Except.error FSError.indexError, s, 0)
  else
    (Except.error FSError.indexError, s, 0)

/-- `RepoCache.list_tree_paths`: names of the entries of the directory
at the path (the whole-tree entries for the empty path); a missing
path or a non-tree object yields the empty list. -/
def list_tree_paths (repo : Repo) (s : RepoState) (commit_hash : String)
    (path : GitPath) (is_abs_path : Bool) :
    Except FSError (List String) × RepoState × Nat :=
  let path := if is_abs_path then getRelPath path else path
  let r := get_tree_by_commit_hash repo s commit_hash
  match r.1 with
  | Except.error e => (Except.error e, r.2.1, r.2.2)
  | Except.ok tree =>
    match (if path = [] then some tree else navigate tree path) with
    | some (GitObj.tree es) => (Except.ok (es.map (fun e => e.1)), r.2.1, r.2.2)
    | some (GitObj.blob _) => (Except.ok [], r.2.1, r.2.2)
    | none => (Except.ok [], r.2.1, r.2.2)

/-- The classification loop of `get_changed_files_paths_by_commit_hash`
over a commit diff: change type A appends to `added`, D to `removed`,
R to both `removed` and `added`, anything else to `modified` (with
python's `diff.b_path or diff.a_path`). A backend diff entry always
carries the path its change type needs, so the `Option` is defaulted
to the empty path. -/
def classify_commit_diffs : List DiffEntry → Changes → Changes
  | [], changes => changes
  | diff :: rest, changes =>
    let changes :=
      if diff.change_type = "A" then
        { changes with added := changes.added ++ [diff.b_path.getD []] }
      else if diff.change_type = "D" then
        { changes with removed := changes.removed ++ [diff.a_path.getD []] }
      else if diff.change_type = "R" then
        { changes with removed := changes.removed ++ [diff.a_path.getD []],
                       added := changes.added ++ [diff.b_path.getD []] }
      else
        { changes with modified := changes.modified ++
            [match diff.b_path with
             | some p => p
             | none => diff.a_path.getD []] }
    classify_commit_diffs rest changes

/-- The classification loop of `get_changed_files_paths_by_commit_hash`
over the working-copy diff: `new_file` appends to `added`,
`deleted_file` to `removed`, anything else to `modified`. -/
def classify_working_diffs : List WorkDiff → Changes → Changes
  | [], changes => changes
  | diff :: rest, changes =>
    let changes :=
      if diff.new_file then
        { changes with added := changes.added ++ [diff.b_path.getD []] }
      else if diff.deleted_file then
        { changes with removed := changes.removed ++ [diff.a_path.getD []] }
      else
        { changes with modified := changes.modified ++ [diff.a_path.getD []] }
    classify_working_diffs rest changes

/-- Modelled backend: `commit.tree.diff(git.Tree.NULL_TREE)` for a
parentless commit diffs the tree against the empty tree (git
`diff-tree --root`), reporting every blob of the tree as added. -/
def treeDiffNull (t : GitObj) : List DiffEntry :=
  (blobEntries t).map (fun e =>
    { change_type := "A", a_path := none, b_path := some e.1 })

/-- Modelled backend: `parent.diff(commit, ...)` comparing the parent
tree (old) with the commit tree (new): paths only in the new tree are
A, only in the old tree D, in both with different bytes M. The
rename/copy heuristic is not modelled (no R entries). -/
def treeDiff (old new : GitObj) : List DiffEntry :=
  let oldE := blobEntries old
  let newE := blobEntries new
  ((newE.filter (fun e => (alookup oldE e.1).isNone)).map (fun e =>
      { change_type := "A", a_path := none, b_path := some e.1 }))
  ++ ((oldE.filter (fun e => (alookup newE e.1).isNone)).map (fun e =>
      { change_type := "D", a_path := some e.1, b_path := none }))
  ++ ((newE.filter (fun e =>
        match alookup oldE e.1 with
        | some d => !(decide (d = e.2))
        | none => false)).map (fun e =>
      { change_type := "M", a_path := some e.1, b_path := some e.1 }))

/-- `RepoCache.get_changed_files_paths_by_commit_hash`: for `None`,
classify the current working-copy diff (never cached); for a commit
hash not yet in `_changed_files`, classify the diff against the first
parent (or the empty tree for a parentless commit) and store it; for a
commit hash already in `_changed_files`, the source returns the
freshly created empty `changes` dict rather than the stored value. -/
def get_changed_files_paths_by_commit_hash (repo : Repo) (s : RepoState)
    (commit_hash : Option String) :
    Except FSError Changes × RepoState × Nat :=
  let changes : Changes := { added := [], removed := [], modified := [] }
  match commit_hash with
  | none =>
    (Except.ok (classify_working_diffs repo.workingDiffs changes), s, 1)
  | some ch =>
    match alookup s.changed_files ch with
    | none =>
      match repo.commit ch with
      | none => (Except.error FSError.badName, s, 1)
      | some commit =>
        match commit.parents.head? with
        | some parent_hash =>
          match repo.commit parent_hash with
          | none => (Except.error FSError.badName, s, 1)
          | some parent =>
            let changes := classify_commit_diffs (treeDiff parent.tree commit.tree) changes
            (Except.ok changes,
             { s with changed_files := (ch, changes) :: s.changed_files }, 1)
        | none =>
          let changes := classify_commit_diffs (treeDiffNull commit.tree) changes
          (Except.ok changes,
           { s with changed_files := (ch, changes) :: s.changed_files }, 1)
    | some _ =>
      (Except.ok changes, s, 0)

/-- A `GitCommitFS` instance after construction: the base path and the
resolved commit hash it is immutably bound to (the shared `RepoCache`
state is threaded separately). -/
structure GitCommitFS where
  base_path : GitPath
  commit_sha : String
deriving DecidableEq

/-- `GitCommitFS.__init__`: resolve the optional commit reference
through `repo.commit(...)` (`None` means the head commit) and bind the
resulting hexsha; `none` when the reference does not resolve. -/
def GitCommitFS.make (repo : Repo) (path : GitPath) (commit_sha : Option String) :
    Option GitCommitFS :=
  match repo.resolveCommit commit_sha with
  | some c => some { base_path := path, commit_sha := c.hexsha }
  | none => none

/-- The `basic` info namespace returned by `GitCommitFS.getinfo`. -/
structure FSInfo where
  name : String
  is_dir : Bool
deriving DecidableEq

/-- `os.path.basename` on a component path: the last component. -/
def basename (p : GitPath) : String := (p.getLast?).getD ""

/-- `GitCommitFS.getinfo`: a cached blob at `base path + path` is a
file, otherwise a tree node is a directory, otherwise (and on any
underlying error) `ResourceNotFound` on the full path. -/
def GitCommitFS.getinfo (repo : Repo) (s : RepoState) (fs : GitCommitFS)
    (path : GitPath) : Except FSError FSInfo × RepoState × Nat :=
  let full_path := fs.base_path ++ path
  let r := get_file_contents_at_commit repo s fs.commit_sha full_path true
  match r.1 with
  | Except.error _ =>
    (Except.error (FSError.resourceNotFound full_path), r.2.1, r.2.2)
  | Except.ok (some _) =>
    (Except.ok { name := basename path, is_dir := false }, r.2.1, r.2.2)
  | Except.ok none =>
    let r2 := path_is_directory repo r.2.1 fs.commit_sha full_path true
    match r2.1 with
    | Except.error _ =>
      (Except.error (FSError.resourceNotFound full_path), r2.2.1, r.2.2 + r2.2.2)
    | Except.ok true =>
      (Except.ok { name := basename path, is_dir := true }, r2.2.1, r.2.2 + r2.2.2)
    | Except.ok false =>
      (Except.error (FSError.resourceNotFound full_path), r2.2.1, r.2.2 + r2.2.2)

/-- `GitCommitFS.openbin`: reads the blob at `base path + path` and
wraps it in a stream; the `mode` argument is accepted but never
consulted by the source. A missing blob (or a directory) raises
`ResourceNotFound` on the full path. -/
def GitCommitFS.openbin (repo : Repo) (s : RepoState) (fs : GitCommitFS)
    (path : GitPath) (mode : String) :
    Except FSError (List Nat) × RepoState × Nat :=
  let path := fs.base_path ++ path
  let r := get_file_contents_at_commit repo s fs.commit_sha path true
  match r.1 with
  | Except.error e => (Except.error e, r.2.1, r.2.2)
  | Except.ok none => (Except.error (FSError.resourceNotFound path), r.2.1, r.2.2)
  | Except.ok (some content) => (Except.ok content, r.2.1, r.2.2)

/-- `GitCommitFS.opendir`: `getinfo` on the path; a `ResourceNotFound`
from it is re-raised on the relative path; an existing non-directory
raises `DirectoryExpected`; otherwise a new `GitCommitFS` is built on
`base path + path` with the same commit hash (its constructor
re-resolves the hash, one backend access). -/
def GitCommitFS.opendir (repo : Repo) (s : RepoState) (fs : GitCommitFS)
    (path : GitPath) : Except FSError GitCommitFS × RepoState × Nat :=
  let full_path := fs.base_path ++ path
  let r := GitCommitFS.getinfo repo s fs path
  match r.1 with
  | Except.error _ => (Except.error (FSError.resourceNotFound path), r.2.1, r.2.2)
  | Except.ok info =>
    if info.is_dir = false then
      (Except.error (FSError.directoryExpected path), r.2.1, r.2.2)
    else
      match GitCommitFS.make repo full_path (some fs.commit_sha) with
      | some sub => (Except.ok sub, r.2.1, r.2.2 + 1)
      | none => (Except.error FSError.badName, r.2.1, r.2.2 + 1)

/-- `GitCommitFS.listdir`: `list_tree_paths` on `base path + path`,
with any raised error translated to `ResourceNotFound` on the full
path (the tree query itself returns `[]` for a missing or non-tree
path instead of raising). -/
def GitCommitFS.listdir (repo : Repo) (s : RepoState) (fs : GitCommitFS)
    (path : GitPath) : Except FSError (List String) × RepoState × Nat :=
  let path := fs.base_path ++ path
  let r := list_tree_paths repo s fs.commit_sha path true
  match r.1 with
  | Except.error _ => (Except.error (FSError.resourceNotFound path), r.2.1, r.2.2)
  | Except.ok names => (Except.ok names, r.2.1, r.2.2)

/-- `GitCommitFS.makedir`: unconditionally `ResourceReadOnly`. -/
def GitCommitFS.makedir (fs : GitCommitFS) (path : GitPath) : Except FSError Unit :=
  Except.error (FSError.resourceReadOnly path)

/-- `GitCommitFS.remove`: unconditionally `ResourceReadOnly`. -/
def GitCommitFS.remove (fs : GitCommitFS) (path : GitPath) : Except FSError Unit :=
  Except.error (FSError.resourceReadOnly path)

/-- `GitCommitFS.removedir`: unconditionally `ResourceReadOnly`. -/
def GitCommitFS.removedir (fs : GitCommitFS) (path : GitPath) : Except FSError Unit :=
  Except.error (FSError.resourceReadOnly path)

/-- `GitCommitFS.setinfo`: unconditionally `ResourceReadOnly`. -/
def GitCommitFS.setinfo (fs : GitCommitFS) (path : GitPath) (info : FSInfo) :
    Except FSError Unit :=
  Except.error (FSError.resourceReadOnly path)

/-- The expensive backend open `git.Repo(path,
search_parent_directories=True)`: resolves any path inside a
repository to that repository's root, `none` when no enclosing
repository exists. -/
structure GitWorld where
  rootOf : GitPath → Option GitPath

/-- The module-level singleton registry: `PATH_2_GITROOT`,
`GITROOT_2_CACHED_REPO` (instances modelled by numeric identities) and
the next fresh instance identity. -/
structure Registry where
  path2gitroot : List (GitPath × GitPath)
  gitroot2repo : List (GitPath × Nat)
  next_id : Nat
deriving DecidableEq

/-- The registry at process start. -/
def Registry.empty : Registry :=
  { path2gitroot := [], gitroot2repo := [], next_id := 0 }

/-- The `if root not in GITROOT_2_CACHED_REPO:` block of
`RepoCache.__new__`: allocate a fresh instance for a root not yet in
the registry, keep the registry as-is otherwise. -/
def Registry.ensureRoot (reg : Registry) (root : GitPath) : Registry :=
  match alookup reg.gitroot2repo root with
  | some _ => reg
  | none =>
    { reg with gitroot2repo := (root, reg.next_id) :: reg.gitroot2repo,
               next_id := reg.next_id + 1 }

/-- `RepoCache.__new__`: a literal path seen before short-circuits to
the cached instance of its root; otherwise the expensive backend open
runs (counted by the third component of the result), a fresh instance
is allocated only when the resolved root is new, and the path-to-root
mapping is recorded. -/
def RepoCache.new (w : GitWorld) (reg : Registry) (path : GitPath) :
    Except FSError (Nat × Registry × Nat) :=
  match alookup reg.path2gitroot path with
  | some root =>
    match alookup reg.gitroot2repo root with
    | some inst => Except.ok (inst, reg, 0)
    | none => Except.error FSError.badName
  | none =>
    match w.rootOf path with
    | none => Except.error FSError.gitInitError
    | some root =>
      let reg2 := { reg.ensureRoot root with
        path2gitroot := (path, root) :: (reg.ensureRoot root).path2gitroot }
      match alookup reg2.gitroot2repo root with
      | some inst => Except.ok (inst, reg2, 1)
      | none => Except.error FSError.badName

deriving instance DecidableEq for Except

/-- Example tree of the root commit: blobs `a` and `b`. -/
def exTree0 : GitObj :=
  GitObj.tree [("a", GitObj.blob [1]), ("b", GitObj.blob [4])]

/-- Example tree of the second commit: `a` modified, `b` removed, a
directory `d` containing blob `x` added. -/
def exTree1 : GitObj :=
  GitObj.tree [("a", GitObj.blob [2]), ("d", GitObj.tree [("x", GitObj.blob [3])])]

/-- The parentless example root commit. -/
def exC0 : Commit := { hexsha := "c0", parents := [], tree := exTree0 }

/-- The example head commit, child of `exC0`. -/
def exC1 : Commit := { hexsha := "c1", parents := ["c0"], tree := exTree1 }

/-- Example backend with a clean working copy. -/
def exRepo : Repo := { history := [exC1, exC0], workingDiffs := [] }

/-- A working-copy modification of blob `a`. -/
def exWD : WorkDiff :=
  { new_file := false, deleted_file := false,
    a_path := some ["a"], b_path := some ["a"] }

/-- The same backend after an uncommitted edit of `a`. -/
def exRepoEdited : Repo := { history := [exC1, exC0], workingDiffs := [exWD] }

/-- A filesystem view at the repository root bound to commit `c1`. -/
def exFS : GitCommitFS := { base_path := [], commit_sha := "c1" }

/-- Example world: two literal paths under one repository root. -/
def exWorld : GitWorld :=
  { rootOf := fun p =>
      if p = ["root", "x"] ∨ p = ["root", "y"] then some ["root"] else none }

/-- Registry after constructing a cache for path `root/x`. -/
def exReg1 : Registry :=
  { path2gitroot := [(["root", "x"], ["root"])],
    gitroot2repo := [(["root"], 0)], next_id := 1 }

/-- Registry after additionally constructing a cache for `root/y`. -/
def exReg2 : Registry :=
  { path2gitroot := [(["root", "y"], ["root"]), (["root", "x"], ["root"])],
    gitroot2repo := [(["root"], 0)], next_id := 1 }

theorem alookup_cons_self {α β : Type} [DecidableEq α] (k : α) (v : β)
    (l : List (α × β)) : alookup ((k, v) :: l) k = some v := by
  simp [alookup]

/-- Claim C6: for a fixed (commitId, path), after a first successful
call to `get_file_contents_at_commit`, a second call returns the same
byte value, leaves the cache state unchanged, and performs no backend
fetch. -/
theorem file_contents_second_call_cached (repo : Repo) (s s1 : RepoState)
    (ch : String) (p : GitPath) (ab : Bool) (v : Option (List Nat)) (n1 : Nat)
    (h : get_file_contents_at_commit repo s ch p ab = (Except.ok v, s1, n1)) :
    get_file_contents_at_commit repo s1 ch p ab = (Except.ok v, s1, 0) := by
  simp only [get_file_contents_at_commit, getRelPath, ite_self] at h ⊢
  cases halook : alookup s.file_data (ch, p) with
  | some v0 =>
    rw [halook] at h
    simp only [Prod.mk.injEq, Except.ok.injEq] at h
    obtain ⟨hv, hs, _⟩ := h
    subst hv
    subst hs
    rw [halook]
  | none =>
    rw [halook] at h
    cases hcommit : repo.commit ch with
    | none => rw [hcommit] at h; simp at h
    | some c =>
      rw [hcommit] at h
      simp only [Prod.mk.injEq, Except.ok.injEq] at h
      obtain ⟨hv, hs, _⟩ := h
      subst hv
      rw [← hs]
      simp only [alookup_cons_self]

/-- Witness for claim C6 at a concrete input. -/
theorem file_contents_second_call_cached_witness :
    get_file_contents_at_commit exRepo
      ((get_file_contents_at_commit exRepo RepoState.initial "c1" ["a"] true).2.1)
      "c1" ["a"] true
      = (Except.ok (some [2]),
         (get_file_contents_at_commit exRepo RepoState.initial "c1" ["a"] true).2.1,
         0) :=
  file_contents_second_call_cached exRepo RepoState.initial
    ((get_file_contents_at_commit exRepo RepoState.initial "c1" ["a"] true).2.1)
    "c1" ["a"] true (some [2]) 1 (by decide)

/-- Claim C7: `changedPaths(none)` is never stored in any cache (the
state is returned unchanged), its value is independent of the cache
state and determined by the backend's current working-copy diff, so
two calls separated by a working-copy edit that changes the classified
diff return different ChangeSets. -/
theorem working_changes_never_cached (repo repo2 : Repo) (s s2 : RepoState)
    (hdiff : classify_working_diffs repo.workingDiffs
        { added := [], removed := [], modified := [] }
      ≠ classify_working_diffs repo2.workingDiffs
        { added := [], removed := [], modified := [] }) :
    (get_changed_files_paths_by_commit_hash repo s none).2.1 = s
    ∧ (get_changed_files_paths_by_commit_hash repo s none).1
        = (get_changed_files_paths_by_commit_hash repo s2 none).1
    ∧ (get_changed_files_paths_by_commit_hash repo s none).1
        ≠ (get_changed_files_paths_by_commit_hash repo2 s none).1 := by
  refine ⟨rfl, rfl, ?_⟩
  simp only [get_changed_files_paths_by_commit_hash, ne_eq, Except.ok.injEq]
  exact hdiff

/-- Witness for claim C7: an uncommitted edit of blob `a` changes the
returned working-copy ChangeSet. -/
theorem working_changes_never_cached_witness :
    (get_changed_files_paths_by_commit_hash exRepo RepoState.initial none).2.1
        = RepoState.initial
    ∧ (get_changed_files_paths_by_commit_hash exRepo RepoState.initial none).1
        = (get_changed_files_paths_by_commit_hash exRepo
            (update_commits exRepo RepoState.initial) none).1
    ∧ (get_changed_files_paths_by_commit_hash exRepo RepoState.initial none).1
        ≠ (get_changed_files_paths_by_commit_hash exRepoEdited RepoState.initial none).1 :=
  working_changes_never_cached exRepo exRepoEdited RepoState.initial
    (update_commits exRepo RepoState.initial) (by decide)

/-- Claim C1 (code bug): the per-commit changed-files cache is
write-only. The first call for commit `c1` returns its real ChangeSet
and stores it, but the second call — the cache-hit path of the source
— returns the freshly created empty `changes` dict instead of the
stored value, so the two calls differ. -/
theorem changed_files_cache_hit_returns_empty :
    (get_changed_files_paths_by_commit_hash exRepo RepoState.initial (some "c1")).1
      = Except.ok { added := [["d", "x"]], removed := [["b"]], modified := [["a"]] }
    ∧ alookup ((get_changed_files_paths_by_commit_hash exRepo RepoState.initial
          (some "c1")).2.1).changed_files "c1"
      = some { added := [["d", "x"]], removed := [["b"]], modified := [["a"]] }
    ∧ (get_changed_files_paths_by_commit_hash exRepo
        ((get_changed_files_paths_by_commit_hash exRepo RepoState.initial
          (some "c1")).2.1) (some "c1")).1
      = Except.ok { added := [], removed := [], modified := [] }
    ∧ (get_changed_files_paths_by_commit_hash exRepo
        ((get_changed_files_paths_by_commit_hash exRepo RepoState.initial
          (some "c1")).2.1) (some "c1")).1
      ≠ (get_changed_files_paths_by_commit_hash exRepo RepoState.initial
          (some "c1")).1 := by
  refine ⟨by decide, by decide, by decide, by decide⟩

/-- Claim C2 (code bug): on the first call, a parentless commit is
diffed against the empty tree and every blob path of its tree is
reported as added, with `removed` and `modified` empty — but on any
later call the write-only cache defect makes the very same query
return an empty `added` set, contradicting the claim for that call. -/
theorem root_commit_diff_all_added_then_lost :
    blobPaths exC0.tree = [["a"], ["b"]]
    ∧ (get_changed_files_paths_by_commit_hash exRepo RepoState.initial (some "c0")).1
      = Except.ok { added := [["a"], ["b"]], removed := [], modified := [] }
    ∧ (get_changed_files_paths_by_commit_hash exRepo
        ((get_changed_files_paths_by_commit_hash exRepo RepoState.initial
          (some "c0")).2.1) (some "c0")).1
      = Except.ok { added := [], removed := [], modified := [] } := by
  refine ⟨by decide, by decide, by decide⟩

/-- Claim C8: the initial population of the commit log equals the
backend's newest-first (reverse-chronological) enumeration, and any
refresh only ever appends to the end of the existing list, leaving the
previously observed prefix unchanged. -/
theorem commit_log_init_order_then_append (repo : Repo) (s : RepoState) :
    (update_commits repo RepoState.initial).commits = repo.historyHashes
    ∧ ∃ tail, (update_commits repo s).commits = s.commits ++ tail := by
  constructor
  · simp only [update_commits, RepoState.initial]
    cases hh : repo.history with
    | nil => simp [Repo.historyHashes, hh]
    | cons c rest => simp [Repo.historyHashes, hh]
  · simp only [update_commits]
    split
    · exact ⟨_, rfl⟩
    · exact ⟨[], (List.append_nil _).symm⟩

theorem get_commit_by_hash_commits (repo : Repo) (s : RepoState) (h : String) :
    ((get_commit_by_hash repo s h).2.1).commits = s.commits := by
  simp only [get_commit_by_hash]
  split
  · rfl
  · split
    · rfl
    · rfl

/-- Claim C10: reading the `commits` property returns the internal
list as-is, mutates nothing and performs no backend access, while the
index-based commit lookup is the operation that first refreshes the
list via `_update_commits`. -/
theorem commits_read_no_refresh (repo : Repo) (s : RepoState) (index : Int) :
    commitsProp s = (s.commits, s, 0)
    ∧ ((get_commit_by_index repo s index).2.1).commits
        = (update_commits repo s).commits := by
  refine ⟨rfl, ?_⟩
  simp only [get_commit_by_index]
  split
  · split
    · exact get_commit_by_hash_commits repo _ _
    · rfl
  · rfl

/-- Claim C4 (amended): the create, delete and set-metadata operations
(`makedir`, `remove`, `removedir`, `setinfo`) fail with
`ResourceReadOnly` unconditionally for every path, while the write
path does not: `openbin` ignores its mode argument entirely, so its
result is the same for every mode. -/
theorem mutators_read_only_openbin_ignores_mode (fs : GitCommitFS) (p : GitPath)
    (info : FSInfo) (repo : Repo) (s : RepoState) (m1 m2 : String) :
    GitCommitFS.makedir fs p = Except.error (FSError.resourceReadOnly p)
    ∧ GitCommitFS.remove fs p = Except.error (FSError.resourceReadOnly p)
    ∧ GitCommitFS.removedir fs p = Except.error (FSError.resourceReadOnly p)
    ∧ GitCommitFS.setinfo fs p info = Except.error (FSError.resourceReadOnly p)
    ∧ GitCommitFS.openbin repo s fs p m1 = GitCommitFS.openbin repo s fs p m2 :=
  ⟨rfl, rfl, rfl, rfl, rfl⟩

/-- Counterexample to claim C4 as stated: opening an existing file in
write mode succeeds (returning the blob's bytes), and opening a
missing path in write mode fails with `ResourceNotFound` — neither
write fails with `ReadOnlyViolation`. -/
theorem openbin_write_mode_no_read_only_error :
    (GitCommitFS.openbin exRepo RepoState.initial exFS ["a"] "w").1 = Except.ok [2]
    ∧ (GitCommitFS.openbin exRepo RepoState.initial exFS ["a"] "w").1
        ≠ Except.error (FSError.resourceReadOnly ["a"])
    ∧ (GitCommitFS.openbin exRepo RepoState.initial exFS ["zz"] "w").1
        = Except.error (FSError.resourceNotFound ["zz"]) := by
  refine ⟨by decide, by decide, by decide⟩

theorem ite_empty_navigate (t : GitObj) (p : GitPath) :
    (if p = [] then some t else navigate t p) = navigate t p := by
  split
  case isTrue h => rw [h]; cases t <;> rfl
  case isFalse h => rfl

/-- Claim C3 (amended): given the commit's tree, `listdir` returns the
ordered entry names when `base path + path` is a directory, and the
EMPTY list — not a `ResourceNotFound` failure — when the path is
missing or names a file (the underlying tree query swallows the
`KeyError` and returns `[]`). -/
theorem listdir_names_or_empty (repo : Repo) (s : RepoState) (fs : GitCommitFS)
    (p : GitPath) (t : GitObj)
    (ht : (get_tree_by_commit_hash repo s fs.commit_sha).1 = Except.ok t) :
    (∀ es, navigate t (fs.base_path ++ p) = some (GitObj.tree es) →
        (GitCommitFS.listdir repo s fs p).1 = Except.ok (es.map (fun e => e.1)))
    ∧ (navigate t (fs.base_path ++ p) = none →
        (GitCommitFS.listdir repo s fs p).1 = Except.ok [])
    ∧ (∀ d, navigate t (fs.base_path ++ p) = some (GitObj.blob d) →
        (GitCommitFS.listdir repo s fs p).1 = Except.ok []) := by
  simp only [GitCommitFS.listdir, list_tree_paths, getRelPath, ite_self,
    ite_empty_navigate, ht]
  refine ⟨?_, ?_, ?_⟩
  · intro es hnav
    rw [hnav]
  · intro hnav
    rw [hnav]
  · intro d hnav
    rw [hnav]

/-- Witness for the amended claim C3 at a concrete directory. -/
theorem listdir_names_or_empty_witness :
    (GitCommitFS.listdir exRepo RepoState.initial exFS ["d"]).1 = Except.ok ["x"] :=
  ((listdir_names_or_empty exRepo RepoState.initial exFS ["d"] exTree1 (by decide)).1)
    [("x", GitObj.blob [3])] (by decide)

/-- Counterexample to claim C3 as stated: at the bound commit `["a"]`
names a file, yet `listdir` returns an empty listing instead of
failing with `ResourceNotFound`; a missing path behaves the same. -/
theorem listdir_file_path_no_error :
    navigate exTree1 ["a"] = some (GitObj.blob [2])
    ∧ (GitCommitFS.listdir exRepo RepoState.initial exFS ["a"]).1 = Except.ok []
    ∧ (GitCommitFS.listdir exRepo RepoState.initial exFS ["a"]).1
        ≠ Except.error (FSError.resourceNotFound ["a"])
    ∧ (GitCommitFS.listdir exRepo RepoState.initial exFS ["zz"]).1 = Except.ok [] := by
  refine ⟨by decide, by decide, by decide, by decide⟩

theorem Repo.commit_hexsha (r : Repo) (h : String) (c : Commit)
    (hc : r.commit h = some c) : c.hexsha = h := by
  have hp := List.find?_some hc
  simpa using hp

/-- Claim C9 (amended): `opendir` on a directory path returns a new
filesystem scoped to `base path + path` and bound to the same commit
hash; a missing path fails with `ResourceNotFound`; but a path that
names a file fails with `DirectoryExpected`, not `ResourceNotFound`. -/
theorem opendir_subview_behavior (repo : Repo) (s : RepoState) (fs : GitCommitFS)
    (p : GitPath) :
    (∀ info, (GitCommitFS.getinfo repo s fs p).1 = Except.ok info →
        info.is_dir = true →
        (Repo.commit repo fs.commit_sha).isSome = true →
        (GitCommitFS.opendir repo s fs p).1
          = Except.ok { base_path := fs.base_path ++ p, commit_sha := fs.commit_sha })
    ∧ (∀ e, (GitCommitFS.getinfo repo s fs p).1 = Except.error e →
        (GitCommitFS.opendir repo s fs p).1
          = Except.error (FSError.resourceNotFound p))
    ∧ (∀ info, (GitCommitFS.getinfo repo s fs p).1 = Except.ok info →
        info.is_dir = false →
        (GitCommitFS.opendir repo s fs p).1
          = Except.error (FSError.directoryExpected p)) := by
  refine ⟨?_, ?_, ?_⟩
  · intro info hinfo hdir hsome
    obtain ⟨c, hc⟩ := Option.isSome_iff_exists.mp hsome
    simp only [GitCommitFS.opendir, hinfo, hdir, GitCommitFS.make,
      Repo.resolveCommit, hc, Repo.commit_hexsha repo fs.commit_sha c hc]
    simp
  · intro e hinfo
    simp only [GitCommitFS.opendir, hinfo]
  · intro info hinfo hdir
    simp only [GitCommitFS.opendir, hinfo, hdir]
    simp

/-- Witness for the amended claim C9: a subview at directory `d` keeps
the commit binding and extends the base path. -/
theorem opendir_subview_behavior_witness :
    (GitCommitFS.opendir exRepo RepoState.initial exFS ["d"]).1
      = Except.ok { base_path := ["d"], commit_sha := "c1" } :=
  (opendir_subview_behavior exRepo RepoState.initial exFS ["d"]).1
    { name := "d", is_dir := true } (by decide) (by decide) (by decide)

/-- Counterexample to claim C9 as stated: `["a"]` is not a directory
at the bound commit, yet `opendir` fails with `DirectoryExpected`
rather than `ResourceNotFound`. -/
theorem opendir_file_path_directory_expected :
    (GitCommitFS.opendir exRepo RepoState.initial exFS ["a"]).1
      = Except.error (FSError.directoryExpected ["a"])
    ∧ (GitCommitFS.opendir exRepo RepoState.initial exFS ["a"]).1
      ≠ Except.error (FSError.resourceNotFound ["a"]) := by
  refine ⟨by decide, by decide⟩


/-- Counterexample to claim C5 as stated: constructing for a second,
previously unseen path under an already-known root returns the very
same instance (identity 0) but still performs the expensive backend
open (final component 1, not 0). -/
theorem repocache_known_root_still_opens :
    RepoCache.new exWorld Registry.empty ["root", "x"] = Except.ok (0, exReg1, 1)
    ∧ RepoCache.new exWorld exReg1 ["root", "y"] = Except.ok (0, exReg2, 1) := by
  refine ⟨by decide, by decide⟩

/-- Claim C5 (amended): any two paths resolving to the same repository
root yield the very same cache instance (here: constructing for `p1`
from the process-start registry and then for `p2` returns identity 0
both times), and a construction for an already-seen literal path
returns the existing instance without re-running the expensive open;
a construction for a new path under a known root, however, does
re-run the open even though it returns the existing instance. -/
theorem repocache_singleton_per_root (w : GitWorld) (p1 p2 r : GitPath)
    (h1 : w.rootOf p1 = some r) (h2 : w.rootOf p2 = some r) :
    (∃ reg1, RepoCache.new w Registry.empty p1 = Except.ok (0, reg1, 1)
       ∧ ∃ reg2 n2, RepoCache.new w reg1 p2 = Except.ok (0, reg2, n2))
    ∧ (∀ reg i reg' n, RepoCache.new w reg p1 = Except.ok (i, reg', n) →
        RepoCache.new w reg' p1 = Except.ok (i, reg', 0)) := by
  constructor
  · refine ⟨{ path2gitroot := [(p1, r)], gitroot2repo := [(r, 0)], next_id := 1 }, ?_, ?_⟩
    · simp [RepoCache.new, Registry.ensureRoot, Registry.empty, alookup, h1]
    · by_cases hpp : p1 = p2
      · subst hpp
        refine ⟨{ path2gitroot := [(p1, r)], gitroot2repo := [(r, 0)], next_id := 1 }, 0, ?_⟩
        simp [RepoCache.new, Registry.ensureRoot, alookup]
      · refine ⟨{ path2gitroot := [(p2, r), (p1, r)], gitroot2repo := [(r, 0)], next_id := 1 }, 1, ?_⟩
        simp [RepoCache.new, Registry.ensureRoot, alookup, h2, hpp]
  · intro reg i reg' n hcall
    simp only [RepoCache.new] at hcall
    split at hcall
    next root hpath =>
      split at hcall
      next inst hroot =>
        simp only [Except.ok.injEq, Prod.mk.injEq] at hcall
        obtain ⟨hi, hreg, -⟩ := hcall
        subst hi
        subst hreg
        simp only [RepoCache.new, hpath, hroot]
      next hroot => simp at hcall
    next hpath =>
      split at hcall
      next hw => simp at hcall
      next root hw =>
        split at hcall
        next inst hfinal =>
          simp only [Except.ok.injEq, Prod.mk.injEq] at hcall
          obtain ⟨hi, hreg, -⟩ := hcall
          subst hi
          subst hreg
          simp only [RepoCache.new, alookup_cons_self, hfinal]
        next hfinal => simp at hcall

/-- Witness for the amended claim C5 at the concrete two-path world. -/
theorem repocache_singleton_per_root_witness :
    (∃ reg1, RepoCache.new exWorld Registry.empty ["root", "x"]
         = Except.ok (0, reg1, 1)
       ∧ ∃ reg2 n2, RepoCache.new exWorld reg1 ["root", "y"]
         = Except.ok (0, reg2, n2))
    ∧ (∀ reg i reg' n, RepoCache.new exWorld reg ["root", "x"]
         = Except.ok (i, reg', n) →
        RepoCache.new exWorld reg' ["root", "x"] = Except.ok (i, reg', 0)) :=
  repocache_singleton_per_root exWorld ["root", "x"] ["root", "y"] ["root"]
    (by decide) (by decide)

theorem classify_commit_diffs_adds (l : List (GitPath × List Nat)) (ch : Changes) :
    classify_commit_diffs
      (l.map (fun e => { change_type := "A", a_path := none, b_path := some e.1 }))
      ch
      = { ch with added := ch.added ++ l.map (fun e => e.1) } := by
  induction l generalizing ch with
  | nil => simp [classify_commit_diffs]
  | cons e rest ih => simp [classify_commit_diffs, ih]

theorem classify_treeDiffNull_added (t : GitObj) (ch : Changes) :
    classify_commit_diffs (treeDiffNull t) ch
      = { ch with added := ch.added ++ blobPaths t } := by
  simp [treeDiffNull, blobPaths, classify_commit_diffs_adds]

/-- General form of the root-commit diff: the FIRST call of
`get_changed_files_paths_by_commit_hash` on a parentless commit
reports every blob path of its tree as added, with `removed` and
`modified` empty (supporting lemma; the cache-hit defect makes later
calls differ, see the claim theorems). -/
theorem changed_files_root_commit_first_call (repo : Repo) (s : RepoState)
    (ch : String) (c : Commit) (hc : repo.commit ch = some c)
    (hpar : c.parents = []) (hmiss : alookup s.changed_files ch = none) :
    (get_changed_files_paths_by_commit_hash repo s (some ch)).1
      = Except.ok { added := blobPaths c.tree, removed := [], modified := [] } := by
  simp only [get_changed_files_paths_by_commit_hash, hmiss, hc, hpar]
  simp [classify_treeDiffNull_added]
